import Mathlib

/-!
Verification of the Refactoring-Swarm orchestration engine and its sandboxed
file-store tools, as a shallow embedding of the Python sources
(src/orchestrator.py, src/agents/judge.py, src/agents/fixer.py,
src/tools/refactoring_tools.py, src/tools/file_operations.py,
src/tools/analysis_tools.py, src/tools/test_tools.py,
src/tools/sandbox_security.py).
-/

namespace RSwarm

/-! ### Python string helpers (str.strip, splitlines, split, substring test) -/

/-- Characters stripped by Python str.strip(): space, tab, newline, CR, VT, FF. -/
def isPySpace (c : Char) : Bool :=
  c = ' ' || c = '\t' || c = '\n' || c = '\r' || c = Char.ofNat 11 || c = Char.ofNat 12

/-- Python str.strip(): remove leading and trailing whitespace. -/
def pyStrip (s : String) : String :=
  ⟨((s.data.dropWhile isPySpace).reverse.dropWhile isPySpace).reverse⟩

/-- Helper for substring search over character lists. -/
def hasSubAux (nd : List Char) : List Char → Bool
  | [] => nd.isEmpty
  | c :: rest => nd.isPrefixOf (c :: rest) || hasSubAux nd rest

/-- Python substring membership: needle in hay. -/
def hasSub (needle hay : String) : Bool :=
  hasSubAux needle.data hay.data

/-- Split a character list at every separator character (structural twin of
String.split, kept kernel-reducible). -/
def splitPred (p : Char → Bool) : List Char → List (List Char)
  | [] => [[]]
  | c :: rest =>
    let r := splitPred p rest
    if p c then [] :: r
    else (c :: r.headD []) :: r.tail

/-- Split at every non-overlapping occurrence of a non-empty separator
string, leftmost first (Python str.split(sep)); the fuel equals the input
length, which suffices because each step consumes at least one character. -/
def splitStrAux (sep : List Char) : Nat → List Char → List (List Char)
  | _, [] => [[]]
  | 0, l => [l]
  | fuel + 1, c :: rest =>
    if sep.isPrefixOf (c :: rest) then
      [] :: splitStrAux sep fuel ((c :: rest).drop sep.length)
    else
      let r := splitStrAux sep fuel rest
      (c :: r.headD []) :: r.tail

/-- Python str.split(sep) for a non-empty separator. -/
def splitStr (sep s : String) : List String :=
  (splitStrAux sep.data s.data.length s.data).map (fun l => ⟨l⟩)

/-- Python pre in s as a prefix test (str.startswith). -/
def strStartsWith (s pre : String) : Bool :=
  pre.data.isPrefixOf s.data

/-- Python str.endswith. -/
def strEndsWith (s suf : String) : Bool :=
  suf.data.isSuffixOf s.data

/-- Python s[n:]. -/
def pyDrop (s : String) (n : Nat) : String :=
  ⟨s.data.drop n⟩

/-- Python s[:-n]. -/
def pyDropRight (s : String) (n : Nat) : String :=
  ⟨s.data.take (s.data.length - n)⟩

/-- Python str.splitlines() restricted to the newline separator: split on the
newline character, with no trailing empty piece when the string ends in a
newline, and an empty list for the empty string. -/
def pySplitlines (s : String) : List String :=
  if s = "" then []
  else
    let parts := (splitPred (fun c => c = '\n') s.data).map (fun l => (⟨l⟩ : String))
    if s.data.getLast? = some '\n' then parts.dropLast else parts

/-- Python str.split() with no argument: split on whitespace, dropping empties. -/
def pyWords (s : String) : List String :=
  ((splitPred isPySpace s.data).filter (fun w => w ≠ [])).map (fun l => ⟨l⟩)

/-! ### Orchestrator state machine (src/orchestrator.py)

The LangGraph workflow is auditor -> test_generator -> judge, then the
conditional edge `_should_continue_or_stop` either ends the run or goes to
fixer, and fixer loops back to judge.  The model keeps exactly the data the
decision reads: `tests_passed` (the current Judge verdict), the iteration
counter (set to 1 by `_auditor_node`, incremented only on the continue
branch), and `max_iterations`.  Judge verdicts are abstracted as a function
from 0-based validate index to pass/fail, since the Judge is invoked once per
loop entry. -/

/-- Outcome of `_should_continue_or_stop` (src/orchestrator.py lines 264-293). -/
inductive Decision
  | stopSuccess
  | stopExhausted
  | cont
deriving DecidableEq, Repr

/-- Decision function `_should_continue_or_stop`: success is tested first,
then the iteration ceiling, else continue. -/
def shouldContinueOrStop (testsPassed : Bool) (iteration maxIter : Nat) : Decision :=
  if testsPassed then .stopSuccess
  else if maxIter ≤ iteration then .stopExhausted
  else .cont

/-- Final loop state: last verdict, final iteration counter, number of Fixer
node executions, number of Judge node executions. -/
structure LoopOut where
  passed : Bool
  iteration : Nat
  fixCount : Nat
  validateCount : Nat
deriving DecidableEq, Repr

/-- One trip around judge -> decision (-> fixer) of the compiled graph.  The
fuel argument only bounds recursion; `orchRun` supplies enough fuel that the
fuel-out branch is never reached. -/
def orchLoop (maxIter : Nat) (v : Nat → Bool) : Nat → Nat → Nat → Nat → LoopOut
  | 0, iteration, fixes, vals => ⟨false, iteration, fixes, vals⟩
  | fuel + 1, iteration, fixes, vals =>
    match shouldContinueOrStop (v vals) iteration maxIter with
    | .stopSuccess => ⟨true, iteration, fixes, vals + 1⟩
    | .stopExhausted => ⟨false, iteration, fixes, vals + 1⟩
    | .cont => orchLoop maxIter v fuel (iteration + 1) (fixes + 1) (vals + 1)

/-- Final result assembled by `LangGraphOrchestrator.run` (lines 371-403):
on success it reports the final iteration counter, on failure it reports
`max_iterations` with the max-iterations reason. -/
structure OrchResult where
  success : Bool
  iterationsNeeded : Nat
  reasonMaxIterations : Bool
  fixCount : Nat
  validateCount : Nat
deriving DecidableEq, Repr

/-- The whole run: `_auditor_node` sets the iteration counter to 1, the test
generator runs once, then the judge/fixer loop executes; `run` builds the
final result record from the final state. -/
def orchRun (maxIter : Nat) (v : Nat → Bool) : OrchResult :=
  let fin := orchLoop maxIter v (maxIter + 1) 1 0 0
  if fin.passed then ⟨true, fin.iteration, false, fin.fixCount, fin.validateCount⟩
  else ⟨false, maxIter, true, fin.fixCount, fin.validateCount⟩

/-! ### Path model (pathlib.Path with resolve / relative_to)

Paths are sequences of name components; an absolute resolved path is a
component list rooted at the filesystem root.  Symlinks are assumed absent,
so Path.resolve() is pure normalization of "." , "" and "..". -/

/-- One path component. -/
abbrev Comp := String

/-- A fully resolved absolute path. -/
abbrev AbsPath := List Comp

/-- A path as handed to a tool: absolute or relative, unresolved. -/
structure PyPath where
  absolute : Bool
  comps : List Comp
deriving DecidableEq, Repr

/-- Path.resolve() normalization of a component list starting from the root:
"." and empty components vanish, ".." pops (staying at the root when already
there, as resolve() does). -/
def resolveComps : List Comp → List Comp → AbsPath
  | acc, [] => acc
  | acc, c :: rest =>
    if c = "." ∨ c = "" then resolveComps acc rest
    else if c = ".." then resolveComps acc.dropLast rest
    else resolveComps (acc ++ [c]) rest

/-- The resolved form `_safe_path` computes: a relative path is joined to the
sandbox root first, an absolute path is resolved on its own. -/
def resolveFor (root : AbsPath) (p : PyPath) : AbsPath :=
  if p.absolute then resolveComps [] p.comps else resolveComps [] (root ++ p.comps)

/-- Render a path for error messages (interpolations in the Python messages). -/
def pathStr (p : PyPath) : String :=
  String.intercalate "/" p.comps

/-- Python exceptions that the tool bodies can raise. -/
inductive PyExc
  | permission (msg : String)
  | fileNotFound (msg : String)
  | timeoutExpired (msg : String)
  | typeError (msg : String)
  | other (msg : String)
deriving DecidableEq, Repr

/-- Python str(e) on an exception. -/
def excMsg : PyExc → String
  | .permission m => m
  | .fileNotFound m => m
  | .timeoutExpired m => m
  | .typeError m => m
  | .other m => m

/-- Message raised by `_safe_path` on a sandbox violation (the Python f-string
also interpolates the offending and sandbox paths; the fixed marker text is
what downstream code and the claims can observe). -/
def oobMsg : String :=
  "SECURITY VIOLATION: Access denied. Path is outside the sandbox boundary."

/-- RefactoringTools._safe_path (refactoring_tools.py lines 48-81): resolve,
then require the result to be a descendant of (or equal to) the sandbox root
via relative_to, else raise PermissionError. -/
def safePath (root : AbsPath) (p : PyPath) : Except PyExc AbsPath :=
  let full := resolveFor root p
  if root.isPrefixOf full then .ok full else .error (.permission oobMsg)

/-! ### File-system state and observable I/O events -/

/-- Filesystem snapshot: file contents by absolute path, plus explicitly
created directories.  A path also counts as a directory when some file or
directory lives strictly below it. -/
structure FS where
  files : List (AbsPath × String)
  dirs : List AbsPath
deriving DecidableEq, Repr

/-- Observable side effects of one tool call. -/
inductive Event
  | readF (p : AbsPath)
  | writeF (p : AbsPath)
  | mkdirP (p : AbsPath)
  | copyF (src dst : AbsPath)
  | spawn (tool : String)
deriving DecidableEq, Repr

/-- Content of the file at p, if a file exists there. -/
def fsGet (fs : FS) (p : AbsPath) : Option String :=
  List.lookup p fs.files

/-- A file exists at p. -/
def isFile (fs : FS) (p : AbsPath) : Bool :=
  (fsGet fs p).isSome

/-- A directory exists at p: p was created as a directory, lies on the way to
one, or lies strictly above some existing file. -/
def isDir (fs : FS) (p : AbsPath) : Bool :=
  fs.dirs.any (fun d => p.isPrefixOf d) ||
    fs.files.any (fun e => p.isPrefixOf e.1 && p ≠ e.1)

/-- Path.exists(). -/
def pathExists (fs : FS) (p : AbsPath) : Bool :=
  isFile fs p || isDir fs p

/-- Overwrite (or create) the file at p. -/
def fsWrite (fs : FS) (p : AbsPath) (c : String) : FS :=
  { fs with files := (p, c) :: fs.files.eraseP (fun e => e.1 == p) }

/-- mkdir(parents=True, exist_ok=True) on the directory d (modelled as
registering d itself; ancestors are implied by the isDir prefix rule). -/
def mkdirParents (fs : FS) (d : AbsPath) : FS :=
  if fs.dirs.contains d then fs else { fs with dirs := d :: fs.dirs }

/-! ### RefactoringTools operations

Each operation returns its Python result dictionary (as a structure holding
the fields at least one consumer or claim reads; purely informational fields
such as byte counts are omitted), the filesystem after the call, and the list
of I/O side effects performed.  Subprocess calls (pylint, pytest) are oracles
supplied as arguments. -/

/-- Result dictionary of read_file. -/
structure ReadResult where
  success : Bool
  content : Option String
  error : Option String
deriving DecidableEq, Repr

/-- RefactoringTools.read_file (lines 85-145): safe-path check first, then
existence and is-file checks, then the read; PermissionError and any other
exception are caught and turned into an error dictionary. -/
def readFileOp (root : AbsPath) (fs : FS) (p : PyPath) : ReadResult × FS × List Event :=
  match safePath root p with
  | .error e => (⟨false, none, some (excMsg e)⟩, fs, [])
  | .ok sp =>
    if ¬ pathExists fs sp then
      (⟨false, none, some ("File not found: " ++ pathStr p)⟩, fs, [])
    else
      match fsGet fs sp with
      | none => (⟨false, none, some ("Path is not a file: " ++ pathStr p)⟩, fs, [])
      | some c => (⟨true, some c, none⟩, fs, [.readF sp])

/-- Path.stem of a file name: the name up to the last dot, provided that dot
is not the leading character. -/
def pyStem (name : String) : String :=
  match (name.data.reverse.takeWhile (fun c => c ≠ '.')).length with
  | n =>
    if n = 0 ∨ n = name.length ∨ name.length - n ≤ 1 then name
    else ⟨name.data.take (name.length - n - 1)⟩

/-- Path.suffix of a file name: the last dot and what follows, when present
and not leading. -/
def pySuffix (name : String) : String :=
  match (name.data.reverse.takeWhile (fun c => c ≠ '.')).length with
  | n =>
    if n = 0 ∨ n = name.length ∨ name.length - n ≤ 1 then ""
    else ⟨name.data.drop (name.length - n - 1)⟩

/-- Backup file name built by create_backup (line 402):
stem "_" timestamp suffix, with the timestamp from strftime. -/
def backupName (sp : AbsPath) (ts : String) : String :=
  let nm := sp.getLastD ""
  pyStem nm ++ "_" ++ ts ++ pySuffix nm

/-- The reserved backup directory of a sandbox root. -/
def backupDirOf (root : AbsPath) : AbsPath :=
  root ++ [".backups"]

/-- Result dictionary of create_backup. -/
structure BackupResult where
  success : Bool
  backupPath : Option AbsPath
  timestamp : Option String
  error : Option String
deriving DecidableEq, Repr

/-- RefactoringTools.create_backup (lines 377-421): safe-path check, existence
check, then copy2 into the backup directory under a timestamped name.  Every
exception (including the PermissionError from the path check, and copy2
failing on a directory) is caught by the single generic handler. -/
def createBackupOp (root : AbsPath) (fs : FS) (p : PyPath) (ts : String) :
    BackupResult × FS × List Event :=
  match safePath root p with
  | .error e =>
    (⟨false, none, none, some ("Error creating backup: " ++ excMsg e)⟩, fs, [])
  | .ok sp =>
    if ¬ pathExists fs sp then
      (⟨false, none, none, some ("Cannot backup non-existent file: " ++ pathStr p)⟩, fs, [])
    else
      match fsGet fs sp with
      | none =>
        (⟨false, none, none, some "Error creating backup: source is a directory"⟩, fs, [])
      | some content =>
        let bpath := backupDirOf root ++ [backupName sp ts]
        (⟨true, some bpath, some ts, none⟩, fsWrite fs bpath content, [.copyF sp bpath])

/-- Result dictionary of write_file. -/
structure WriteResult where
  success : Bool
  backupPath : Option AbsPath
  error : Option String
deriving DecidableEq, Repr

/-- RefactoringTools.write_file (lines 319-375): safe-path check first; then,
when requested and the file exists, create_backup (a failed backup is ignored
and leaves backup_path empty); then mkdir the parent and write.  Writing over
an existing directory raises inside open() and is caught by the generic
handler, after the backup and mkdir side effects already happened. -/
def writeFileOp (root : AbsPath) (fs : FS) (p : PyPath) (content : String)
    (createBackup : Bool) (ts : String) : WriteResult × FS × List Event :=
  match safePath root p with
  | .error e => (⟨false, none, some (excMsg e)⟩, fs, [])
  | .ok sp =>
    let bk :=
      if createBackup && pathExists fs sp then
        let (br, fs1, evs1) := createBackupOp root fs p ts
        ((if br.success then br.backupPath else none), fs1, evs1)
      else (none, fs, [])
    let fs2 := mkdirParents bk.2.1 sp.dropLast
    let evs2 := bk.2.2 ++ [Event.mkdirP sp.dropLast]
    if isDir fs2 sp then
      (⟨false, none, some "Unexpected error writing file: target is a directory"⟩, fs2, evs2)
    else
      (⟨true, bk.1, none⟩, fsWrite fs2 sp content, evs2 ++ [Event.writeF sp])

/-- Result dictionary of restore_backup. -/
structure RestoreResult where
  success : Bool
  restoredTo : Option AbsPath
  error : Option String
deriving DecidableEq, Repr

/-- RefactoringTools.restore_backup (lines 423-466): the backup path (resolved
against the process working directory when relative) must lie inside the
backup directory, must exist, and the target must pass the safe-path check;
then copy2 overwrites the target.  copy2 raising (source a directory, target
a directory, missing target parent) is caught by the generic handler. -/
def restoreBackupOp (root : AbsPath) (fs : FS) (cwd : AbsPath) (bp : PyPath)
    (target : PyPath) : RestoreResult × FS × List Event :=
  let backupFull := if bp.absolute then resolveComps [] bp.comps
    else resolveComps [] (cwd ++ bp.comps)
  let bdir := backupDirOf root
  if ¬ (bdir.isPrefixOf backupFull && bdir ≠ backupFull) then
    (⟨false, none, some "Backup path must be in the .backups directory"⟩, fs, [])
  else if ¬ pathExists fs backupFull then
    (⟨false, none, some ("Backup file not found: " ++ pathStr bp)⟩, fs, [])
  else
    match safePath root target with
    | .error e =>
      (⟨false, none, some ("Error restoring backup: " ++ excMsg e)⟩, fs, [])
    | .ok tp =>
      match fsGet fs backupFull with
      | none =>
        (⟨false, none, some "Error restoring backup: source is a directory"⟩, fs, [])
      | some content =>
        if isDir fs tp ∨ ¬ isDir fs tp.dropLast then
          (⟨false, none, some "Error restoring backup: invalid target"⟩, fs, [])
        else
          (⟨true, some tp, none⟩, fsWrite fs tp content, [.copyF backupFull tp])

/-! ### Subprocess-based tools: run_pylint and run_pytest -/

/-- Outcome of one subprocess.run call: completed with captured output and
return code, timed out (subprocess.TimeoutExpired), or the binary was not
found (FileNotFoundError). -/
inductive SubprocRes
  | completed (stdout stderr : String) (returncode : Int)
  | timedOut
  | binMissing
deriving DecidableEq, Repr

/-- One pylint message parsed from the JSON output (only the type drives the
categorization; the rendered message is what the Judge later prints). -/
structure PyIssue where
  ty : String
  msg : String
deriving DecidableEq, Repr

/-- Result dictionary of run_pylint. -/
structure PylintResult where
  success : Bool
  score : Option ℚ
  errors : List PyIssue
  warnings : List PyIssue
  conventions : List PyIssue
  refactors : List PyIssue
  error : Option String
deriving DecidableEq, Repr

/-- Helper: python list index access split("rated at")[1]. -/
def splitAt2nd (sep s : String) : Option String :=
  (splitStr sep s).get? 1

/-- RefactoringTools._extract_pylint_score (lines 284-294): scan for the
rating line and parse the number before the slash; a failed parse falls
through to the next line.  Python float() is the oracle parseFloat. -/
def extractPylintScore (parseFloat : String → Option ℚ) : List String → Option ℚ
  | [] => none
  | l :: rest =>
    if hasSub "Your code has been rated at" l then
      match splitAt2nd "rated at" l with
      | some seg =>
        match parseFloat (pyStrip ((splitStr "/" seg).headD "")) with
        | some q => some q
        | none => extractPylintScore parseFloat rest
      | none => extractPylintScore parseFloat rest
    else extractPylintScore parseFloat rest

/-- RefactoringTools.run_pylint (lines 185-282): safe-path check, existence
check, one pylint run with JSON output (json.loads is the oracle parseIssues;
a parse failure yields an empty issue list), one pylint run with text output
for the score, then categorization by message type.  Timeouts and a missing
pylint binary are caught and reported as distinct error dictionaries. -/
def runPylintOp (root : AbsPath) (fs : FS) (p : PyPath)
    (parseIssues : String → Option (List PyIssue)) (parseFloat : String → Option ℚ)
    (subJson subText : SubprocRes) : PylintResult × FS × List Event :=
  match safePath root p with
  | .error e => (⟨false, none, [], [], [], [], some (excMsg e)⟩, fs, [])
  | .ok sp =>
    if ¬ pathExists fs sp then
      (⟨false, none, [], [], [], [], some ("File not found: " ++ pathStr p)⟩, fs, [])
    else
      match subJson with
      | .timedOut =>
        (⟨false, none, [], [], [], [], some "Pylint analysis timed out (30s limit)"⟩,
          fs, [.spawn "pylint"])
      | .binMissing =>
        (⟨false, none, [], [], [], [], some "Pylint is not installed. Run: pip install pylint"⟩,
          fs, [.spawn "pylint"])
      | .completed out _ _ =>
        let issues := if out = "" then [] else (parseIssues out).getD []
        match subText with
        | .timedOut =>
          (⟨false, none, [], [], [], [], some "Pylint analysis timed out (30s limit)"⟩,
            fs, [.spawn "pylint", .spawn "pylint"])
        | .binMissing =>
          (⟨false, none, [], [], [], [], some "Pylint is not installed. Run: pip install pylint"⟩,
            fs, [.spawn "pylint", .spawn "pylint"])
        | .completed tout _ _ =>
          let score := extractPylintScore parseFloat (pySplitlines tout)
          (⟨true, score,
            issues.filter (fun i => i.ty = "error"),
            issues.filter (fun i => i.ty = "warning"),
            issues.filter (fun i => i.ty = "convention"),
            issues.filter (fun i => i.ty = "refactor"),
            none⟩, fs, [.spawn "pylint", .spawn "pylint"])

/-- Test statistics scraped from pytest output. -/
structure PyStats where
  passed : Nat
  failed : Nat
  errors : Nat
  skipped : Nat
  total : Nat
deriving DecidableEq, Repr

/-- Helper for the failed/error counters: first word whose successor
satisfies the predicate (Python scans word pairs, requiring an index above
zero). -/
def wordBefore (pred : String → Bool) : List String → Option String
  | w1 :: w2 :: rest => if pred w2 then some w1 else wordBefore pred (w2 :: rest)
  | _ => none

/-- RefactoringTools._parse_pytest_output (lines 596-636): for every line
containing " passed" or " failed", try to read the passed count from the
second word, the failed count from the word before "failed", and the error
count from the word before a word containing "error"; parse failures leave
the previous value.  Python int() is the oracle parseNat.  The skipped field
is initialized to zero and never assigned.  The total excludes skipped. -/
def parsePytestOutput (parseNat : String → Option Nat) (output : String) : PyStats :=
  let st := (pySplitlines output).foldl
    (fun (st : PyStats) line =>
      if hasSub " passed" line || hasSub " failed" line then
        let ws := pyWords line
        let st := if hasSub "passed" line then
            match ws.get? 1 >>= parseNat with
            | some n => { st with passed := n }
            | none => st
          else st
        let st := if hasSub "failed" line then
            match wordBefore (fun w => w = "failed") ws >>= parseNat with
            | some n => { st with failed := n }
            | none => st
          else st
        let st := if hasSub "error" line then
            match wordBefore (fun w => hasSub "error" w) ws >>= parseNat with
            | some n => { st with errors := n }
            | none => st
          else st
        st
      else st)
    ⟨0, 0, 0, 0, 0⟩
  { st with total := st.passed + st.failed + st.errors }

/-- Result dictionary of run_pytest.  The normal completion path carries
stdout plus stderr as full_output; the exception paths return dictionaries
without that key (hence none) but with an error message. -/
structure PytestResult where
  success : Bool
  passed : Nat
  failed : Nat
  errors : Nat
  skipped : Nat
  total : Nat
  fullOutput : Option String
  returnCode : Option Int
  error : Option String
deriving DecidableEq, Repr

/-- RefactoringTools.run_pytest (lines 500-594): with no target the whole
sandbox is tested (no path check needed); otherwise safe-path plus existence
checks come first.  The pytest subprocess is the oracle; success is return
code zero; timeouts and a missing pytest binary are caught as distinct error
dictionaries. -/
def runPytestOp (root : AbsPath) (fs : FS) (target : Option PyPath)
    (parseNat : String → Option Nat) (sub : SubprocRes) :
    PytestResult × FS × List Event :=
  let pathE : Except PyExc AbsPath :=
    match target with
    | none => .ok root
    | some t => safePath root t
  match pathE with
  | .error e =>
    (⟨false, 0, 0, 0, 0, 0, none, none, some (excMsg e)⟩, fs, [])
  | .ok tp =>
    if target.isSome && ¬ pathExists fs tp then
      (⟨false, 0, 0, 0, 0, 0, none, none,
        some ("Test target not found: " ++ pathStr (target.getD ⟨true, []⟩))⟩, fs, [])
    else
      match sub with
      | .timedOut =>
        (⟨false, 0, 0, 0, 0, 0, none, none, some "Pytest execution timed out (60s limit)"⟩,
          fs, [.spawn "pytest"])
      | .binMissing =>
        (⟨false, 0, 0, 0, 0, 0, none, none, some "Pytest is not installed. Run: pip install pytest"⟩,
          fs, [.spawn "pytest"])
      | .completed stdout stderr rc =>
        let stats := parsePytestOutput parseNat (stdout ++ stderr)
        (⟨rc == 0, stats.passed, stats.failed, stats.errors, stats.skipped, stats.total,
          some (stdout ++ "\n" ++ stderr), some rc, none⟩, fs, [.spawn "pytest"])

/-- Result dictionary of list_files. -/
structure ListResult where
  success : Bool
  files : List String
  count : Nat
  error : Option String
deriving DecidableEq, Repr

/-- Relative path string of an absolute path below the root. -/
def relStr (root : AbsPath) (p : AbsPath) : String :=
  String.intercalate "/" (p.drop root.length)

/-- RefactoringTools.list_files (lines 147-183): glob the sandbox for files
whose final component matches the pattern (the glob pattern semantics are the
oracle pat), exclude everything below the backup directory, return sorted
relative paths. -/
def listFilesOp (root : AbsPath) (fs : FS) (pat : String → Bool) :
    ListResult × FS × List Event :=
  let bdir := backupDirOf root
  let rel := fs.files.filterMap (fun e =>
    if root.isPrefixOf e.1 && pat (e.1.getLastD "") &&
        ¬ (bdir.isPrefixOf e.1 && bdir ≠ e.1) then
      some (relStr root e.1)
    else none)
  let sorted := rel.mergeSort (fun a b => a ≤ b)
  (⟨true, sorted, sorted.length, none⟩, fs, [])

/-- Result dictionary of validate_target_dir (note the valid key, not
success). -/
structure ValidateResult where
  valid : Bool
  error : Option String
deriving DecidableEq, Repr

/-- RefactoringTools.validate_target_dir (lines 687-731): safe-path check,
existence check, is-dir check. -/
def validateTargetDirOp (root : AbsPath) (fs : FS) (p : PyPath) :
    ValidateResult × FS × List Event :=
  match safePath root p with
  | .error e => (⟨false, some (excMsg e)⟩, fs, [])
  | .ok sp =>
    if ¬ pathExists fs sp then
      (⟨false, some ("Directory does not exist: " ++ pathStr p)⟩, fs, [])
    else if ¬ isDir fs sp then
      (⟨false, some ("Path is not a directory: " ++ pathStr p)⟩, fs, [])
    else
      (⟨true, none⟩, fs, [])

/-! ### file_operations.py wrappers (raise on failure)

Each wrapper calls the RefactoringTools operation and re-raises on failure:
PermissionError when the error text contains "outside sandbox", else
FileNotFoundError for read-like wrappers (note the actual sandbox message
says "outside the sandbox", so the substring test never fires and even
sandbox violations surface as FileNotFoundError), and PermissionError
unconditionally for the write/backup wrappers. -/

/-- file_operations.read_file (lines 24-46). -/
def foReadFile (root : AbsPath) (fs : FS) (p : PyPath) : Except PyExc String :=
  let r := (readFileOp root fs p).1
  if r.success then .ok (r.content.getD "")
  else
    .error (if hasSub "outside sandbox" (r.error.getD "")
      then .permission (r.error.getD "") else .fileNotFound (r.error.getD ""))

/-- file_operations.write_file (lines 49-65). -/
def foWriteFile (root : AbsPath) (fs : FS) (p : PyPath) (content : String)
    (createBackup : Bool) (ts : String) : Except PyExc (FS × List Event) :=
  let (r, fs1, evs) := writeFileOp root fs p content createBackup ts
  if r.success then .ok (fs1, evs) else .error (.permission (r.error.getD ""))

/-- file_operations.backup_file (lines 68-87). -/
def foBackupFile (root : AbsPath) (fs : FS) (p : PyPath) (ts : String) :
    Except PyExc (AbsPath × FS × List Event) :=
  let (r, fs1, evs) := createBackupOp root fs p ts
  if r.success then .ok (r.backupPath.getD [], fs1, evs)
  else .error (.permission (r.error.getD ""))

/-- sandbox_security.validate_path (lines 11-44): same resolve-and-check logic
as RefactoringTools._safe_path, against the default sandbox root. -/
def validatePathSec (root : AbsPath) (p : PyPath) : Except PyExc AbsPath :=
  safePath root p

/-! ### FixerAgent (src/agents/fixer.py) -/

/-- FixerAgent._clean_generated_code (lines 102-114): successively strip a
leading markdown fence with language tag, a bare leading fence, and a
trailing fence, re-stripping whitespace at each step. -/
def cleanGeneratedCode (c0 : String) : String :=
  let c1 := if strStartsWith (pyStrip c0) "```python"
    then pyStrip (pyDrop (pyStrip c0) 9) else c0
  let c2 := if strStartsWith (pyStrip c1) "```"
    then pyStrip (pyDrop (pyStrip c1) 3) else c1
  if strEndsWith (pyStrip c2) "```"
    then pyStrip (pyDropRight (pyStrip c2) 3) else c2

/-- Per-file result returned by fix_file. -/
structure FixFileResult where
  file : PyPath
  success : Bool
  fixedCode : String
deriving DecidableEq, Repr

/-- FixerAgent.fix_file (lines 43-100): validate the path, read the current
content, back the file up, obtain replacement content from the model (the
oracle resp stands for response.text of the one generation call), clean it,
and write it through file_operations.write_file (whose create_backup flag
defaults to true, so a second backup is taken at write time).  There is no
comparison of the generated content against the current content, and no
exception handling: any failure propagates. -/
def fixFile (root : AbsPath) (fs : FS) (p : PyPath) (resp : String) (ts : String) :
    Except PyExc (FixFileResult × FS × List Event) := do
  let _ ← validatePathSec root p
  let _origCode ← foReadFile root fs p
  let bk ← foBackupFile root fs p ts
  let fixed := cleanGeneratedCode resp
  let w ← foWriteFile root bk.2.1 p fixed true ts
  .ok (⟨p, true, fixed⟩, w.1, bk.2.2 ++ w.2)

/-! ### JudgeAgent (src/agents/judge.py) and its tool wrappers -/

/-- analysis_tools.run_pylint (lines 23-54): re-raise on an unsuccessful
result, PermissionError when the error text contains "outside sandbox" (which
the actual message never does), else FileNotFoundError. -/
def analysisRunPylint (r : PylintResult) : Except PyExc PylintResult :=
  if r.success then .ok r
  else
    .error (if hasSub "outside sandbox" (r.error.getD "")
      then .permission (r.error.getD "") else .fileNotFound (r.error.getD ""))

/-- The pytest result shape the Judge consumes, built by test_tools.run_pytest
(lines 21-59): the success flag, and full_output when present, else the empty
string. -/
structure WrappedPytest where
  success : Bool
  output : String
deriving DecidableEq, Repr

/-- test_tools.run_pytest result adaptation (line 56): output is
full_output when the underlying dictionary has it, else empty. -/
def testToolsRunPytest (r : PytestResult) : WrappedPytest :=
  ⟨r.success, r.fullOutput.getD ""⟩

/-- What one judge-side pylint call observably does: raise (tool missing,
timeout, file missing - all caught by the Judge loop and skipped), or return
a dictionary with an optional score and the rendered important messages
(errors plus conventions plus refactors, warnings excluded). -/
inductive LintRes
  | raised
  | res (score : Option ℚ) (msgs : List String)
deriving DecidableEq, Repr

/-- Adaptation from the tool result to the judge-visible outcome; render is
Python str() on a message dictionary. -/
def lintResOf (render : PyIssue → String) (e : Except PyExc PylintResult) : LintRes :=
  match e with
  | .error _ => .raised
  | .ok r => .res r.score ((r.errors ++ r.conventions ++ r.refactors).map render)

/-- One structured failing test handed to the Fixer. -/
structure TestFailure where
  file : String
  test : String
  err : String
deriving DecidableEq, Repr

/-- The opaque record used when no failure can be identified. -/
def unknownFailure : TestFailure :=
  ⟨"unknown", "unknown", "Unable to clearly identify failing test."⟩

/-- JudgeAgent._extract_failures (lines 137-165): every output line containing
both "FAILED" and "::" becomes a failure record (file before the first "::",
test after it, stripped line as the error); when no record was found and the
output is non-empty, one opaque placeholder is produced; for empty output the
list stays empty. -/
def extractFailures (output : String) : List TestFailure :=
  let failures := (pySplitlines output).filterMap (fun line =>
    if hasSub "FAILED" line && hasSub "::" line then
      let parts := splitStr "::" line
      some ⟨parts.headD "", parts.getD 1 "unknown", pyStrip line⟩
    else none)
  if failures.isEmpty && output != "" then [unknownFailure] else failures

/-- Verdict status of run_tests. -/
inductive VerdictStatus
  | success
  | failure
deriving DecidableEq, Repr

/-- The verdict dictionary of JudgeAgent.run_tests, plus the list of files
that were actually handed to the inspector (empty when tests failed), which
makes the skip-quality-checks behaviour observable. -/
structure Verdict where
  status : VerdictStatus
  failingTests : List TestFailure
  inspected : List String
deriving DecidableEq, Repr

/-- The per-file pylint results the Judge stores (judge.py line 70): only the
calls that returned a dictionary; raising calls store nothing. -/
def judgeStored (files : List String) (inspect : String → LintRes) :
    List (String × Option ℚ × List String) :=
  files.filterMap (fun f => match inspect f with
    | .res sc m => some (f, sc, m)
    | .raised => none)

/-- Python Path(fpath).name: the final path component. -/
def pyBaseName (fpath : String) : String :=
  (splitStr "/" fpath).getLastD fpath

/-- One feedback line per under-threshold file (judge.py line 101); showScore
is Python str() on the float score. -/
def fileHeaderLine (showScore : ℚ → String) (fpath : String) (s : ℚ) : String :=
  "\nFile: " ++ pyBaseName fpath ++ " (Score: " ++ showScore s ++ "/10)"

/-- The pylint feedback lines (judge.py lines 97-104): a header, then for
every stored file scoring below 8.0 its header line and one line per
important message. -/
def lintErrorLines (showScore : ℚ → String)
    (stored : List (String × Option ℚ × List String)) : List String :=
  "PYLINT QUALITY CHECK FAILED (Score < 8.0):" ::
    (stored.filter (fun e => match e.2.1 with
      | some s => decide (s < 8)
      | none => false)).flatMap
      (fun e => fileHeaderLine showScore e.1 ((e.2.1).getD 0) ::
        e.2.2.map (fun m => "  - " ++ m))

/-- The single Quality Gate pseudo-failure (judge.py lines 106-110): the
feedback lines capped at 20 and joined by newlines. -/
def qualityGateEntry (showScore : ℚ → String)
    (stored : List (String × Option ℚ × List String)) : TestFailure :=
  ⟨"Quality Gate", "Pylint Analysis",
    String.intercalate "\n" ((lintErrorLines showScore stored).take 20)⟩

/-- The quality flag of JudgeAgent.run_tests (lines 55-81): true unless some
stored result carries a score below 8.0; raising calls stored nothing, and a
stored None score is skipped because the TypeError from its comparison is
caught in the loop. -/
def judgePylintOk (stored : List (String × Option ℚ × List String)) : Bool :=
  stored.all (fun e => match e.2.1 with
    | some s => !(decide (s < 8))
    | none => true)

/-- Whether some stored pylint result has a missing score (triggering the
uncaught TypeError in the feedback-building loop, judge.py line 100). -/
def judgeNoneScore (stored : List (String × Option ℚ × List String)) : Bool :=
  stored.any (fun e => (e.2.1).isNone)

/-- JudgeAgent.run_tests (lines 44-135).  Quality analysis runs only when the
tests passed; a pylint call that raises is caught and the file skipped; a
stored score of None is skipped in the gate loop but crashes the later
feedback-building loop, whose comparison is outside any try block; the global
verdict is success exactly when the tests passed and the quality flag
survived. -/
def judgeRunTests (showScore : ℚ → String) (files : List String)
    (inspect : String → LintRes) (pytest : WrappedPytest) : Except PyExc Verdict :=
  let testsPassed := pytest.success
  let inspected := if testsPassed then files else []
  let stored := judgeStored inspected inspect
  if testsPassed && judgePylintOk stored then .ok ⟨.success, [], inspected⟩
  else
    let failures := extractFailures pytest.output
    if testsPassed && !(judgePylintOk stored) then
      if judgeNoneScore stored then
        .error (.typeError "unsupported comparison of NoneType and float")
      else
        .ok ⟨.failure, failures ++ [qualityGateEntry showScore stored], inspected⟩
    else .ok ⟨.failure, failures, inspected⟩

end RSwarm
namespace RSwarm

theorem orchLoop_allFail (maxIter : Nat) (v : Nat → Bool) (hv : ∀ i, v i = false) :
    ∀ fuel iteration fixes vals, maxIter - iteration < fuel → iteration ≤ maxIter →
      orchLoop maxIter v fuel iteration fixes vals =
        ⟨false, maxIter, fixes + (maxIter - iteration), vals + (maxIter - iteration) + 1⟩ := by
  intro fuel
  induction fuel with
  | zero => intro iteration fixes vals h1 _h2; omega
  | succ f ih =>
    intro iteration fixes vals h1 h2
    simp only [orchLoop, shouldContinueOrStop, hv, Bool.false_eq_true, if_false]
    by_cases hle : maxIter ≤ iteration
    · have heq : iteration = maxIter := Nat.le_antisymm h2 hle
      subst heq
      simp [hle]
    · simp only [if_neg hle]
      rw [ih (iteration + 1) (fixes + 1) (vals + 1) (by omega) (by omega)]
      have h3 : maxIter - iteration = (maxIter - (iteration + 1)) + 1 := by omega
      rw [h3]
      congr 1 <;> omega

theorem orchLoop_firstSuccess (maxIter : Nat) (v : Nat → Bool) :
    ∀ t fuel iteration fixes vals,
      (∀ i, vals ≤ i → i < vals + t → v i = false) → v (vals + t) = true →
      iteration + t ≤ maxIter → t < fuel →
      orchLoop maxIter v fuel iteration fixes vals =
        ⟨true, iteration + t, fixes + t, vals + t + 1⟩ := by
  intro t
  induction t with
  | zero =>
    intro fuel iteration fixes vals _hpre hsucc _hle hf
    match fuel, hf with
    | f + 1, _ =>
      simp only [Nat.add_zero] at hsucc
      simp [orchLoop, shouldContinueOrStop, hsucc]
  | succ k ih =>
    intro fuel iteration fixes vals hpre hsucc hle hf
    match fuel, hf with
    | f + 1, hf =>
      have hv0 : v vals = false := hpre vals (Nat.le_refl _) (by omega)
      simp only [orchLoop, shouldContinueOrStop, hv0, Bool.false_eq_true, if_false]
      have hlt : ¬ maxIter ≤ iteration := by omega
      simp only [if_neg hlt]
      rw [ih f (iteration + 1) (fixes + 1) (vals + 1)
        (fun i h1 h2 => hpre i (by omega) (by omega))
        (by have h := hsucc
            rw [show vals + (k + 1) = vals + 1 + k from by omega] at h
            exact h)
        (by omega) (by omega)]
      congr 1 <;> omega

example : True := trivial

end RSwarm
namespace RSwarm

/-- C2 (corrected): with max_iterations = N and no Validate ever succeeding,
the engine performs exactly N - 1 Fix stages and N Validates (Validate still
runs once more than Fix) and terminates exhausted with success = false and
the max-iterations reason; it terminates earlier, with k Fix stages, when
Validate first succeeds at its (k+1)-th run. -/
theorem C2_loop_bound_corrected (N : Nat) (v : Nat → Bool) (hN : 1 ≤ N) :
    ((∀ i, v i = false) → orchRun N v = ⟨false, N, true, N - 1, N⟩) ∧
    (∀ k, k < N → (∀ i, i < k → v i = false) → v k = true →
      orchRun N v = ⟨true, k + 1, false, k, k + 1⟩) := by
  constructor
  · intro hv
    unfold orchRun
    rw [orchLoop_allFail N v hv (N + 1) 1 0 0 (by omega) hN]
    simp only []
    have h1 : 0 + (N - 1) = N - 1 := by omega
    have h2 : 0 + (N - 1) + 1 = N := by omega
    simp [h1, h2]
    omega
  · intro k hk hpre hsucc
    unfold orchRun
    rw [orchLoop_firstSuccess N v k (N + 1) 1 0 0
      (fun i _ h2 => hpre i (by omega)) (by simpa using hsucc) (by omega) (by omega)]
    simp [Nat.add_comm]

/-- C2 counterexample: at max_iterations = 2 with every Validate failing, the
code performs 1 Fix stage and 2 Validates, not the 2 Fix stages and 3
Validates the claim states. -/
theorem C2_loop_bound_counterexample :
    (orchRun 2 (fun _ => false)).fixCount = 1 ∧
    (orchRun 2 (fun _ => false)).validateCount = 2 ∧
    ¬ ((orchRun 2 (fun _ => false)).fixCount = 2 ∧
       (orchRun 2 (fun _ => false)).validateCount = 3) := by
  refine ⟨rfl, rfl, ?_⟩
  intro h
  simp [orchRun, orchLoop, shouldContinueOrStop] at h

/-- C2 witness: the corrected theorem applied at N = 2 with all-failing
verdicts. -/
theorem C2_loop_bound_corrected_witness :
    (1 ≤ 2) ∧ orchRun 2 (fun _ => false) = ⟨false, 2, true, 1, 2⟩ :=
  ⟨by decide, (C2_loop_bound_corrected 2 (fun _ => false) (by decide)).1 (fun _ => rfl)⟩

/-- C3 (confirmed): the decision function tests success before the iteration
ceiling, for every iteration counter and ceiling; consequently a run whose
Validate first succeeds at the final allowed iteration (the N-th Validate,
with iteration = N = max_iterations) ends in the success terminal outcome,
never exhaustion. -/
theorem C3_success_before_ceiling :
    (∀ iteration maxIter : Nat, shouldContinueOrStop true iteration maxIter = .stopSuccess) ∧
    (∀ (N : Nat) (v : Nat → Bool), 1 ≤ N → (∀ i, i < N - 1 → v i = false) →
      v (N - 1) = true →
      orchRun N v = ⟨true, N, false, N - 1, N⟩) := by
  constructor
  · intro iteration maxIter; rfl
  · intro N v hN hpre hsucc
    unfold orchRun
    rw [orchLoop_firstSuccess N v (N - 1) (N + 1) 1 0 0
      (fun i _ h2 => hpre i (by omega)) (by simpa using hsucc) (by omega) (by omega)]
    have h1 : 1 + (N - 1) = N := by omega
    have h2 : 0 + (N - 1) = N - 1 := by omega
    have h3 : 0 + (N - 1) + 1 = N := by omega
    simp [h1, h2, h3]
    omega

/-- C3 witness: a run with max_iterations = 2 whose second Validate is the
first success ends successfully at iteration 2. -/
theorem C3_success_before_ceiling_witness :
    (1 ≤ 2) ∧ orchRun 2 (fun i => i == 1) = ⟨true, 2, false, 1, 2⟩ :=
  ⟨by decide, (C3_success_before_ceiling).2 2 (fun i => i == 1) (by decide)
    (by intro i hi; interval_cases i; rfl) (by decide)⟩

end RSwarm
namespace RSwarm

theorem safePath_oob (root : AbsPath) (p : PyPath)
    (hoob : root.isPrefixOf (resolveFor root p) = false) :
    safePath root p = .error (.permission oobMsg) := by
  simp [safePath, hoob]

/-- C1 (confirmed): for every path whose resolved form lies outside the
sandbox root, each File Store operation taking a path (read_file, write_file,
create_backup, run_pylint, run_pytest, validate_target_dir) returns an
out-of-bounds failure result whose error text carries the security-violation
message, leaves the filesystem untouched, and performs no I/O event: the
containment check happens before any read, backup, parent-directory creation,
write, or subprocess spawn. -/
theorem C1_sandbox_containment (root : AbsPath) (fs : FS) (p : PyPath)
    (hoob : root.isPrefixOf (resolveFor root p) = false) :
    (readFileOp root fs p = (⟨false, none, some oobMsg⟩, fs, [])) ∧
    (∀ content cb ts, writeFileOp root fs p content cb ts =
      (⟨false, none, some oobMsg⟩, fs, [])) ∧
    (∀ ts, createBackupOp root fs p ts =
      (⟨false, none, none, some ("Error creating backup: " ++ oobMsg)⟩, fs, [])) ∧
    (∀ pi pf s1 s2, runPylintOp root fs p pi pf s1 s2 =
      (⟨false, none, [], [], [], [], some oobMsg⟩, fs, [])) ∧
    (∀ pn sub, runPytestOp root fs (some p) pn sub =
      (⟨false, 0, 0, 0, 0, 0, none, none, some oobMsg⟩, fs, [])) ∧
    (validateTargetDirOp root fs p = (⟨false, some oobMsg⟩, fs, [])) := by
  have hsp := safePath_oob root p hoob
  refine ⟨?_, ?_, ?_, ?_, ?_, ?_⟩
  · simp [readFileOp, hsp, excMsg]
  · intro content cb ts; simp [writeFileOp, hsp, excMsg]
  · intro ts; simp [createBackupOp, hsp, excMsg]
  · intro pi pf s1 s2; simp [runPylintOp, hsp, excMsg]
  · intro pn sub; simp [runPytestOp, hsp, excMsg]
  · simp [validateTargetDirOp, hsp, excMsg]

/-- C1 witness: the relative path "../x.py" resolves above the sandbox root
and read_file rejects it without touching the (empty) filesystem. -/
theorem C1_sandbox_containment_witness :
    (["root", "sandbox"] : AbsPath).isPrefixOf
      (resolveFor ["root", "sandbox"] ⟨false, ["..", "x.py"]⟩) = false ∧
    readFileOp ["root", "sandbox"] ⟨[], []⟩ ⟨false, ["..", "x.py"]⟩ =
      (⟨false, none, some oobMsg⟩, (⟨[], []⟩ : FS), []) :=
  ⟨by decide,
    (C1_sandbox_containment ["root", "sandbox"] ⟨[], []⟩ ⟨false, ["..", "x.py"]⟩
      (by decide)).1⟩

end RSwarm
namespace RSwarm

/-- C10 (confirmed): every public RefactoringTools operation is total at its
interface (each model function below is a total Lean function because every
Python raise site is converted by the except clauses into a result
dictionary), always yields a result with a Boolean success flag, and on each
internal error condition (sandbox violation, missing file, tool timeout, tool
not installed) the result has success = false together with an error message;
a result without an error message is either successful or, for run_pytest, a
normal completed run (full output present). -/
theorem C10_interface_totality (root : AbsPath) (fs : FS) (p : PyPath) :
    ((readFileOp root fs p).1.success = true ∨
      ((readFileOp root fs p).1.success = false ∧ (readFileOp root fs p).1.error.isSome)) ∧
    (∀ pat, ((listFilesOp root fs pat).1.success = true ∨
      ((listFilesOp root fs pat).1.success = false ∧
        (listFilesOp root fs pat).1.error.isSome))) ∧
    (∀ pi pf s1 s2, ((runPylintOp root fs p pi pf s1 s2).1.success = true ∨
      ((runPylintOp root fs p pi pf s1 s2).1.success = false ∧
        (runPylintOp root fs p pi pf s1 s2).1.error.isSome))) ∧
    (∀ content cb ts, ((writeFileOp root fs p content cb ts).1.success = true ∨
      ((writeFileOp root fs p content cb ts).1.success = false ∧
        (writeFileOp root fs p content cb ts).1.error.isSome))) ∧
    (∀ ts, ((createBackupOp root fs p ts).1.success = true ∨
      ((createBackupOp root fs p ts).1.success = false ∧
        (createBackupOp root fs p ts).1.error.isSome))) ∧
    (∀ cwd bp tgt, ((restoreBackupOp root fs cwd bp tgt).1.success = true ∨
      ((restoreBackupOp root fs cwd bp tgt).1.success = false ∧
        (restoreBackupOp root fs cwd bp tgt).1.error.isSome))) ∧
    (∀ tgt pn sub, ((runPytestOp root fs tgt pn sub).1.success = true ∨
      (runPytestOp root fs tgt pn sub).1.error.isSome ∨
      (runPytestOp root fs tgt pn sub).1.fullOutput.isSome)) ∧
    (∀ pi pf s1, (safePath root p).isOk = true →
      pathExists fs (resolveFor root p) = true →
      (runPylintOp root fs p pi pf .timedOut s1).1 =
        ⟨false, none, [], [], [], [], some "Pylint analysis timed out (30s limit)"⟩) ∧
    (∀ pn, (runPytestOp root fs none pn .binMissing).1 =
      ⟨false, 0, 0, 0, 0, 0, none, none,
        some "Pytest is not installed. Run: pip install pytest"⟩) := by
  refine ⟨?_, ?_, ?_, ?_, ?_, ?_, ?_, ?_, ?_⟩
  · unfold readFileOp
    (repeat' split) <;> simp
  · intro pat; unfold listFilesOp; simp
  · intro pi pf s1 s2
    unfold runPylintOp
    (repeat' split) <;> simp
  · intro content cb ts
    unfold writeFileOp
    split
    · simp
    · dsimp only
      split
      · split
        · split <;> simp
        · split <;> simp
      · split <;> simp
  · intro ts
    unfold createBackupOp
    (repeat' split) <;> simp
  · intro cwd bp tgt
    unfold restoreBackupOp
    dsimp only
    split_ifs
    all_goals try simp
    all_goals (repeat' split) <;> simp
  · intro tgt pn sub
    unfold runPytestOp
    dsimp only
    (repeat' split) <;> simp
  · intro pi pf s1 hok hex
    rcases h : safePath root p with e | sp
    · rw [h] at hok; simp [Except.isOk, Except.toBool] at hok
    · have hsp : sp = resolveFor root p := by
        unfold safePath at h
        by_cases hpre : List.isPrefixOf root (resolveFor root p) = true
        · simp only [hpre, if_true] at h
          exact (Except.ok.injEq _ _ ▸ h).symm
        · simp only [hpre, if_false] at h
          exact absurd h (by simp)
      unfold runPylintOp
      rw [h, hsp]
      simp [hex]
  · intro pn
    unfold runPytestOp
    simp

end RSwarm

namespace RSwarm

/-- C10 witness: the totality theorem applied to a concrete sandbox holding
one file, with the pylint-timeout hypotheses discharged there. -/
theorem C10_interface_totality_witness :
    (safePath ["root", "sandbox"] ⟨false, ["a.py"]⟩).isOk = true ∧
    pathExists ⟨[(["root", "sandbox", "a.py"], "A")], [["root", "sandbox"]]⟩
      (resolveFor ["root", "sandbox"] ⟨false, ["a.py"]⟩) = true ∧
    (runPylintOp ["root", "sandbox"] ⟨[(["root", "sandbox", "a.py"], "A")], [["root", "sandbox"]]⟩
      ⟨false, ["a.py"]⟩ (fun _ => none) (fun _ => none) .timedOut (.completed "" "" 0)).1 =
      ⟨false, none, [], [], [], [], some "Pylint analysis timed out (30s limit)"⟩ :=
  ⟨by decide, by decide,
    (C10_interface_totality ["root", "sandbox"]
      ⟨[(["root", "sandbox", "a.py"], "A")], [["root", "sandbox"]]⟩
      ⟨false, ["a.py"]⟩).2.2.2.2.2.2.2.1 (fun _ => none) (fun _ => none)
      (.completed "" "" 0) (by decide) (by decide)⟩

end RSwarm
namespace RSwarm

theorem judgeRunTests_testsFail (ss : ℚ → String) (files : List String)
    (inspect : String → LintRes) (pytest : WrappedPytest)
    (h : pytest.success = false) :
    judgeRunTests ss files inspect pytest =
      .ok ⟨.failure, extractFailures pytest.output, []⟩ := by
  unfold judgeRunTests
  simp [h, judgeStored]

theorem judgeRunTests_pass_ok (ss : ℚ → String) (files : List String)
    (inspect : String → LintRes) (pytest : WrappedPytest)
    (hp : pytest.success = true)
    (hq : judgePylintOk (judgeStored files inspect) = true) :
    judgeRunTests ss files inspect pytest = .ok ⟨.success, [], files⟩ := by
  unfold judgeRunTests
  simp [hp, hq]

theorem judgeRunTests_pass_qualityFail (ss : ℚ → String) (files : List String)
    (inspect : String → LintRes) (pytest : WrappedPytest)
    (hp : pytest.success = true)
    (hq : judgePylintOk (judgeStored files inspect) = false)
    (hn : judgeNoneScore (judgeStored files inspect) = false) :
    judgeRunTests ss files inspect pytest =
      .ok ⟨.failure, extractFailures pytest.output ++
        [qualityGateEntry ss (judgeStored files inspect)], files⟩ := by
  unfold judgeRunTests
  simp [hp, hq, hn]

theorem judgePylintOk_iff (files : List String) (inspect : String → LintRes) :
    judgePylintOk (judgeStored files inspect) = true ↔
      ∀ f ∈ files, ∀ s m, inspect f = .res (some s) m → (8 : ℚ) ≤ s := by
  unfold judgePylintOk
  rw [List.all_eq_true]
  constructor
  · intro h f hf s m hfm
    have hmem : (f, some s, m) ∈ judgeStored files inspect := by
      unfold judgeStored
      exact List.mem_filterMap.2 ⟨f, hf, by rw [hfm]⟩
    have h2 := h _ hmem
    simp only [Bool.not_eq_true', decide_eq_false_iff_not, not_lt] at h2
    exact h2
  · intro h e hmem
    rcases List.mem_filterMap.1 hmem with ⟨f, hf, hmk⟩
    cases hins : inspect f with
    | raised =>
      rw [hins] at hmk
      simp at hmk
    | res sc m =>
      rw [hins] at hmk
      simp only [Option.some.injEq] at hmk
      cases hsc : sc with
      | none =>
        rw [← hmk]
        simp [hsc]
      | some s =>
        rw [← hmk]
        simp only [hsc]
        have := h f hf s m (by rw [hins, hsc])
        simp [not_lt.2 this]

/-- C4 counterexample: with one discovered file whose pylint call raises (for
example, pylint missing), a passing test run yields the success verdict even
though the file never received a score of at least 8.0 - refuting the
only-if direction of the claimed equivalence. -/
theorem C4_verdict_counterexample :
    judgeRunTests (fun _ => "") ["a.py"] (fun _ => .raised) ⟨true, "2 passed\n"⟩ =
      .ok ⟨.success, [], ["a.py"]⟩ ∧
    ¬ ∃ (s : ℚ) (m : List String),
        (fun _ => (.raised : LintRes)) "a.py" = .res (some s) m ∧ 8 ≤ s := by
  constructor
  · rfl
  · rintro ⟨s, m, h, -⟩
    exact LintRes.noConfusion h

/-- C4 (amended): per-file quality analysis runs only when the test run
passed (on failing tests the verdict is built from the raw output alone and
no file is inspected), and a returned verdict is success exactly when the
tests passed and no inspected file came back with a score below 8.0; files
whose inspection raises, or returns no score, are skipped by the gate. -/
theorem C4_verdict_amended (ss : ℚ → String) (files : List String)
    (inspect : String → LintRes) (pytest : WrappedPytest) :
    (pytest.success = false →
      judgeRunTests ss files inspect pytest =
        .ok ⟨.failure, extractFailures pytest.output, []⟩) ∧
    (∀ v, judgeRunTests ss files inspect pytest = .ok v →
      (v.status = .success ↔ pytest.success = true ∧
        ∀ f ∈ files, ∀ s m, inspect f = .res (some s) m → (8 : ℚ) ≤ s)) := by
  constructor
  · exact judgeRunTests_testsFail ss files inspect pytest
  · intro v hv
    rcases hp : pytest.success with _ | _
    · rw [judgeRunTests_testsFail ss files inspect pytest hp] at hv
      replace hv := Except.ok.inj hv
      subst hv
      simp [hp]
    · rcases hq : judgePylintOk (judgeStored files inspect) with _ | _
      · have hqn : ¬ (∀ f ∈ files, ∀ s m, inspect f = .res (some s) m → (8 : ℚ) ≤ s) := by
          intro hall
          rw [← judgePylintOk_iff files inspect] at hall
          rw [hq] at hall
          exact absurd hall (by simp)
        rcases hn : judgeNoneScore (judgeStored files inspect) with _ | _
        · rw [judgeRunTests_pass_qualityFail ss files inspect pytest hp hq hn] at hv
          replace hv := Except.ok.inj hv
          subst hv
          simp only []
          constructor
          · intro hs; exact absurd hs (by simp)
          · rintro ⟨-, hall⟩; exact absurd hall hqn
        · rw [show judgeRunTests ss files inspect pytest =
              .error (.typeError "unsupported comparison of NoneType and float") from by
            unfold judgeRunTests; simp [hp, hq, hn]] at hv
          exact absurd hv (by simp)
      · rw [judgeRunTests_pass_ok ss files inspect pytest hp hq] at hv
        replace hv := Except.ok.inj hv
        subst hv
        simpa [hp] using (judgePylintOk_iff files inspect).1 hq

/-- C4 witness: the amended theorem applied to a failing test run (quality
skipped) and, through the equivalence, to a clean passing run. -/
theorem C4_verdict_amended_witness :
    ((⟨false, "boom"⟩ : WrappedPytest).success = false) ∧
    judgeRunTests (fun _ => "") ["a.py"] (fun _ => .res (some 9) []) ⟨false, "boom"⟩ =
      .ok ⟨.failure, extractFailures "boom", []⟩ ∧
    ((⟨.success, [], ["a.py"]⟩ : Verdict).status = .success ↔
      (⟨true, "2 passed"⟩ : WrappedPytest).success = true ∧
      ∀ f ∈ ["a.py"], ∀ (s : ℚ) (m : List String),
        (fun _ => LintRes.res (some 9) []) f = .res (some s) m → (8 : ℚ) ≤ s) :=
  ⟨rfl,
    (C4_verdict_amended (fun _ => "") ["a.py"] (fun _ => .res (some 9) []) ⟨false, "boom"⟩).1 rfl,
    (C4_verdict_amended (fun _ => "") ["a.py"] (fun _ => .res (some 9) []) ⟨true, "2 passed"⟩).2
      ⟨.success, [], ["a.py"]⟩ (by rfl)⟩

end RSwarm
namespace RSwarm

/-- C5 counterexample: when the Code Inspector cannot run on any file (its
call raises, as when pylint is missing), a passing test run still produces a
plain success verdict - the run is not aborted and no infrastructure-failure
outcome exists; and when the Test Runner binary is missing, its wrapped
result is an ordinary failure with empty output, which the Judge turns into
a plain failure verdict with an empty failing list, indistinguishable in
kind from a normal test failure. -/
theorem C5_tool_failure_counterexample :
    judgeRunTests (fun _ => "") ["b.py"] (fun _ => .raised) ⟨true, "3 passed\n"⟩ =
      .ok ⟨.success, [], ["b.py"]⟩ ∧
    testToolsRunPytest
      (runPytestOp ["root", "sandbox"] ⟨[], []⟩ none (fun _ => none) .binMissing).1 =
      ⟨false, ""⟩ ∧
    judgeRunTests (fun _ => "") ["b.py"] (fun _ => .raised) ⟨false, ""⟩ =
      .ok ⟨.failure, [], []⟩ := by
  refine ⟨rfl, rfl, rfl⟩

/-- C5 (amended): tool failures never abort the run and are not surfaced as a
distinct infrastructure outcome: a raising inspector call is skipped, so a
run whose inspector always raises yields a plain success verdict whenever the
tests pass; and a failed runner whose wrapped output is empty (as happens
when pytest is missing or times out, since those result dictionaries carry no
full output) yields a plain failure verdict with an empty failing list. -/
theorem C5_tool_failure_amended (ss : ℚ → String) (files : List String)
    (inspect : String → LintRes) (pytest : WrappedPytest) :
    ((∀ f ∈ files, inspect f = .raised) → pytest.success = true →
      judgeRunTests ss files inspect pytest = .ok ⟨.success, [], files⟩) ∧
    (pytest.success = false → pytest.output = "" →
      judgeRunTests ss files inspect pytest = .ok ⟨.failure, [], []⟩) := by
  constructor
  · intro hall hp
    apply judgeRunTests_pass_ok ss files inspect pytest hp
    unfold judgePylintOk judgeStored
    rw [List.all_eq_true]
    intro e hmem
    rcases List.mem_filterMap.1 hmem with ⟨g, hg, hmk⟩
    rw [hall g hg] at hmk
    simp at hmk
  · intro hp hout
    rw [judgeRunTests_testsFail ss files inspect pytest hp, hout]
    rfl

/-- C5 witness: the amended theorem applied to one file with a raising
inspector and a passing run, and to a missing-runner failure. -/
theorem C5_tool_failure_amended_witness :
    judgeRunTests (fun _ => "") ["c.py"] (fun _ => .raised) ⟨true, "1 passed\n"⟩ =
      .ok ⟨.success, [], ["c.py"]⟩ ∧
    judgeRunTests (fun _ => "") ["c.py"] (fun _ => .raised) ⟨false, ""⟩ =
      .ok ⟨.failure, [], []⟩ :=
  ⟨(C5_tool_failure_amended (fun _ => "") ["c.py"] (fun _ => .raised)
      ⟨true, "1 passed\n"⟩).1 (fun _ _ => rfl) rfl,
    (C5_tool_failure_amended (fun _ => "") ["c.py"] (fun _ => .raised)
      ⟨false, ""⟩).2 rfl rfl⟩

/-- C6 counterexample: on an empty raw output (exactly what the Judge
receives when the pytest tool itself fails), no placeholder is produced - the
extracted list is empty, and the resulting failure verdict hands the Fix
stage an empty failing list. -/
theorem C6_placeholder_counterexample :
    extractFailures "" = [] ∧
    judgeRunTests (fun _ => "") ["d.py"] (fun _ => .raised) ⟨false, ""⟩ =
      .ok ⟨.failure, [], []⟩ := by
  exact ⟨rfl, rfl⟩

/-- C6 (amended): for every non-empty pytest raw output in which no line
carries both the FAILED marker and a :: locator, exactly one opaque
placeholder record is produced; consequently the extracted list is non-empty
for every non-empty output, and every failure verdict built from a non-empty
output hands the Fix stage a non-empty failing list.  For empty output
(possible only when the test tool itself failed) the list is empty. -/
theorem C6_placeholder_amended (out : String) :
    (out ≠ "" →
      (∀ line ∈ pySplitlines out,
        ¬ (hasSub "FAILED" line = true ∧ hasSub "::" line = true)) →
      extractFailures out = [unknownFailure]) ∧
    (out ≠ "" → extractFailures out ≠ []) ∧
    (∀ ss files inspect pytest v, pytest.output = out → out ≠ "" →
      judgeRunTests ss files inspect pytest = .ok v →
      v.status = .failure → v.failingTests ≠ []) := by
  have hmain : out ≠ "" →
      (∀ line ∈ pySplitlines out,
        ¬ (hasSub "FAILED" line = true ∧ hasSub "::" line = true)) →
      extractFailures out = [unknownFailure] := by
    intro hne hnomark
    unfold extractFailures
    have hnil : (pySplitlines out).filterMap (fun line =>
        if hasSub "FAILED" line && hasSub "::" line then
          let parts := splitStr "::" line
          some (⟨parts.headD "", parts.getD 1 "unknown", pyStrip line⟩ : TestFailure)
        else none) = [] := by
      rw [List.filterMap_eq_nil_iff]
      intro line hline
      have := hnomark line hline
      rw [if_neg (by simpa [Bool.and_eq_true] using this)]
    rw [hnil]
    simp [hne]
  have hne2 : out ≠ "" → extractFailures out ≠ [] := by
    intro hne
    unfold extractFailures
    rcases hfm : (pySplitlines out).filterMap (fun line =>
        if hasSub "FAILED" line && hasSub "::" line then
          let parts := splitStr "::" line
          some (⟨parts.headD "", parts.getD 1 "unknown", pyStrip line⟩ : TestFailure)
        else none) with _ | ⟨hd, tl⟩
    · simp [hne]
    · simp
  refine ⟨hmain, hne2, ?_⟩
  intro ss files inspect pytest v hpo hne hv hstat
  rcases hp : pytest.success with _ | _
  · rw [judgeRunTests_testsFail ss files inspect pytest hp] at hv
    replace hv := Except.ok.inj hv
    subst hv
    simp only []
    rw [hpo]
    exact hne2 hne
  · rcases hq : judgePylintOk (judgeStored files inspect) with _ | _
    · rcases hn : judgeNoneScore (judgeStored files inspect) with _ | _
      · rw [judgeRunTests_pass_qualityFail ss files inspect pytest hp hq hn] at hv
        replace hv := Except.ok.inj hv
        subst hv
        simp
      · rw [show judgeRunTests ss files inspect pytest =
            .error (.typeError "unsupported comparison of NoneType and float") from by
          unfold judgeRunTests; simp [hp, hq, hn]] at hv
        exact absurd hv (by simp)
    · rw [judgeRunTests_pass_ok ss files inspect pytest hp hq] at hv
      replace hv := Except.ok.inj hv
      subst hv
      exact absurd hstat (by simp)

/-- C6 witness: a non-empty marker-free output yields exactly the opaque
placeholder, and a failure verdict built from it is non-empty. -/
theorem C6_placeholder_amended_witness :
    ((("no markers here\n") : String) ≠ "") ∧
    extractFailures "no markers here\n" = [unknownFailure] ∧
    extractFailures "no markers here\n" ≠ [] :=
  ⟨by decide,
    (C6_placeholder_amended "no markers here\n").1 (by decide) (by decide),
    (C6_placeholder_amended "no markers here\n").2.1 (by decide)⟩

end RSwarm
namespace RSwarm

/-- C7 counterexample: tests pass, one discovered file scores 5 < 8.0 - the
resulting failing list holds TWO entries, because the passing pytest output
(non-empty, with no FAILED markers) first produces the opaque "unknown"
placeholder, and only then is the Quality Gate pseudo-failure appended; the
claimed exactly-one-entry shape is refuted. -/
theorem C7_quality_gate_counterexample :
    judgeRunTests (fun _ => "5") ["a.py"] (fun _ => .res (some 5) ["m1"])
        ⟨true, "2 passed\n"⟩ =
      .ok ⟨.failure,
        [unknownFailure,
         ⟨"Quality Gate", "Pylint Analysis",
          "PYLINT QUALITY CHECK FAILED (Score < 8.0):\n\nFile: a.py (Score: 5/10)\n  - m1"⟩],
        ["a.py"]⟩ ∧
    ∀ v, judgeRunTests (fun _ => "5") ["a.py"] (fun _ => .res (some 5) ["m1"])
        ⟨true, "2 passed\n"⟩ = .ok v → v.failingTests.length ≠ 1 := by
  constructor
  · rfl
  · intro v hv
    replace hv := Except.ok.inj hv
    rw [← hv]
    decide

/-- C7 (amended): when the tests pass, at least one discovered file scores
below 8.0, and no inspection returned a missing score, the failing list is
the list extracted from the (passing) pytest output - which for a non-empty
marker-free output is exactly the one opaque placeholder - followed by a
single appended Quality Gate pseudo-failure entry whose file field is
"Quality Gate" and whose error text is the per-file feedback lines (each
under-threshold file with its score and its issues) capped at 20 lines. -/
theorem C7_quality_gate_amended (ss : ℚ → String) (files : List String)
    (inspect : String → LintRes) (pytest : WrappedPytest)
    (hp : pytest.success = true)
    (hlow : ∃ f ∈ files, ∃ s m, inspect f = .res (some s) m ∧ s < 8)
    (hnone : ∀ f ∈ files, ∀ m, inspect f ≠ .res none m) :
    judgeRunTests ss files inspect pytest =
      .ok ⟨.failure, extractFailures pytest.output ++
        [qualityGateEntry ss (judgeStored files inspect)], files⟩ ∧
    (qualityGateEntry ss (judgeStored files inspect)).file = "Quality Gate" ∧
    (qualityGateEntry ss (judgeStored files inspect)).err =
      String.intercalate "\n"
        ((lintErrorLines ss (judgeStored files inspect)).take 20) := by
  have hq : judgePylintOk (judgeStored files inspect) = false := by
    rcases hq0 : judgePylintOk (judgeStored files inspect) with _ | _
    · rfl
    · exfalso
      rcases hlow with ⟨f, hf, s, m, hfm, hs⟩
      have := (judgePylintOk_iff files inspect).1 hq0 f hf s m hfm
      linarith
  have hn : judgeNoneScore (judgeStored files inspect) = false := by
    rcases hn0 : judgeNoneScore (judgeStored files inspect) with _ | _
    · rfl
    · exfalso
      unfold judgeNoneScore at hn0
      rcases List.any_eq_true.1 hn0 with ⟨e, hmem, hisnone⟩
      rcases List.mem_filterMap.1 hmem with ⟨f, hf, hmk⟩
      cases hins : inspect f with
      | raised =>
        rw [hins] at hmk
        simp at hmk
      | res sc m =>
        rw [hins] at hmk
        simp only [Option.some.injEq] at hmk
        rw [← hmk] at hisnone
        simp only [Option.isNone_iff_eq_none] at hisnone
        exact hnone f hf m (by rw [hins, hisnone])
  exact ⟨judgeRunTests_pass_qualityFail ss files inspect pytest hp hq hn, rfl, rfl⟩

/-- C7 witness: the amended theorem applied to the concrete one-file
quality-gate scenario. -/
theorem C7_quality_gate_amended_witness :
    judgeRunTests (fun _ => "7") ["e.py"] (fun _ => .res (some 7) ["w1"])
        ⟨true, "4 passed\n"⟩ =
      .ok ⟨.failure, extractFailures "4 passed\n" ++
        [qualityGateEntry (fun _ => "7")
          (judgeStored ["e.py"] (fun _ => .res (some 7) ["w1"]))], ["e.py"]⟩ :=
  (C7_quality_gate_amended (fun _ => "7") ["e.py"] (fun _ => .res (some 7) ["w1"])
    ⟨true, "4 passed\n"⟩ rfl
    ⟨"e.py", by decide, 7, ["w1"], rfl, by norm_num⟩
    (fun f hf m h => by
      have hf2 : f = "e.py" := by simpa using hf
      subst hf2
      exact absurd h (by simp))).1

end RSwarm
namespace RSwarm

theorem fsGet_fsWrite_self (fs : FS) (p : AbsPath) (c : String) :
    fsGet (fsWrite fs p c) p = some c := by
  unfold fsGet fsWrite
  simp [List.lookup_cons]

theorem lookup_eraseP_ne (q p : AbsPath) (h : q ≠ p) :
    ∀ l : List (AbsPath × String),
      List.lookup q (l.eraseP (fun e => e.1 == p)) = List.lookup q l := by
  intro l
  induction l with
  | nil => rfl
  | cons a rest ih =>
    rcases a with ⟨k, v⟩
    by_cases hk : k = p
    · subst hk
      rw [List.eraseP_cons_of_pos (by simp)]
      rw [List.lookup_cons]
      have : (q == k) = false := by simp [h]
      simp [this]
    · rw [List.eraseP_cons_of_neg (by simp [hk])]
      rw [List.lookup_cons, List.lookup_cons]
      by_cases hq : q = k
      · subst hq; simp
      · have : (q == k) = false := by simp [hq]
        simp [this, ih]

theorem fsGet_fsWrite_ne (fs : FS) (p q : AbsPath) (c : String) (h : q ≠ p) :
    fsGet (fsWrite fs p c) q = fsGet fs q := by
  unfold fsGet fsWrite
  rw [List.lookup_cons]
  have hb : (q == p) = false := by simp [h]
  simp only [hb]
  exact lookup_eraseP_ne q p h fs.files

theorem fsGet_mkdirParents (fs : FS) (d q : AbsPath) :
    fsGet (mkdirParents fs d) q = fsGet fs q := by
  unfold fsGet mkdirParents
  split <;> rfl

theorem dirs_fsWrite (fs : FS) (p : AbsPath) (c : String) :
    (fsWrite fs p c).dirs = fs.dirs := rfl

theorem isDir_of_mem_dirs (fs : FS) (d : AbsPath) (h : d ∈ fs.dirs) :
    isDir fs d = true := by
  unfold isDir
  rw [Bool.or_eq_true, List.any_eq_true]
  exact Or.inl ⟨d, h, by simp [List.isPrefixOf_iff_prefix]⟩

theorem mem_dirs_mkdirParents (fs : FS) (d : AbsPath) :
    d ∈ (mkdirParents fs d).dirs := by
  unfold mkdirParents
  split
  · next h => exact List.mem_of_elem_eq_true h
  · exact List.mem_cons_self _ _

theorem isDir_fsWrite_false (fs : FS) (p q : AbsPath) (c : String)
    (hd : isDir fs q = false) (hp : ¬ (q <+: p ∧ q ≠ p)) :
    isDir (fsWrite fs p c) q = false := by
  unfold isDir at hd ⊢
  rw [Bool.or_eq_false_iff] at hd ⊢
  refine ⟨hd.1, ?_⟩
  rw [List.any_eq_false]
  intro e he
  rcases List.mem_cons.1 he with he1 | he2
  · subst he1
    by_cases hqp : q <+: p
    · have hqp2 : q = p := by
        by_contra hne
        exact hp ⟨hqp, hne⟩
      simp [hqp2]
    · simp [List.isPrefixOf_iff_prefix, hqp]
  · exact List.any_eq_false.1 hd.2 e (List.eraseP_subset _ he2)

theorem files_mkdirParents (fs : FS) (d : AbsPath) :
    (mkdirParents fs d).files = fs.files := by
  unfold mkdirParents
  split <;> rfl

theorem isDir_mkdirParents_false (fs : FS) (d q : AbsPath)
    (hd : isDir fs q = false) (hq : ¬ q <+: d) :
    isDir (mkdirParents fs d) q = false := by
  unfold isDir at hd ⊢
  rw [Bool.or_eq_false_iff] at hd ⊢
  refine ⟨?_, by rw [files_mkdirParents]; exact hd.2⟩
  unfold mkdirParents
  split
  · exact hd.1
  · simp only []
    rw [List.any_eq_false]
    intro x hx
    rcases List.mem_cons.1 hx with hx1 | hx2
    · subst hx1
      simp only [List.isPrefixOf_iff_prefix, decide_eq_true_eq]
      simpa using hq
    · exact List.any_eq_false.1 hd.1 x hx2

theorem isDir_fsWrite_of_mem_dirs (fs : FS) (p d : AbsPath) (c : String)
    (h : d ∈ fs.dirs) : isDir (fsWrite fs p c) d = true := by
  unfold isDir
  rw [Bool.or_eq_true, List.any_eq_true]
  exact Or.inl ⟨d, by rw [dirs_fsWrite]; exact h, by simp [List.isPrefixOf_iff_prefix]⟩

theorem not_prefix_dropLast (sp : AbsPath) (h : sp ≠ []) : ¬ sp <+: sp.dropLast := by
  intro hpre
  have hlen := hpre.length_le
  have : sp.dropLast.length = sp.length - 1 := List.length_dropLast sp
  rw [this] at hlen
  have hpos : 0 < sp.length := List.length_pos.2 h
  omega

theorem pathExists_of_fsGet (fs : FS) (p : AbsPath) (c : String)
    (h : fsGet fs p = some c) : pathExists fs p = true := by
  unfold pathExists isFile
  rw [h]
  simp

end RSwarm
namespace RSwarm

theorem backupName_ne (sp : AbsPath) (ts1 ts2 : String) (hne : ts1 ≠ ts2) :
    backupName sp ts1 ≠ backupName sp ts2 := by
  unfold backupName
  intro h
  apply hne
  apply String.ext
  have hd := congrArg String.data h
  simp only [String.data_append, List.append_assoc] at hd
  have h1 := List.append_cancel_left hd
  have h2 := List.append_cancel_left h1
  exact List.append_cancel_right h2

theorem concat_ne_concat_of_ne (bdir : AbsPath) (n1 n2 : String) (h : n1 ≠ n2) :
    bdir ++ [n1] ≠ bdir ++ [n2] := by
  intro heq
  have := List.append_cancel_left heq
  simp only [List.cons.injEq] at this
  exact h this.1

theorem createBackupOp_file (root : AbsPath) (fs : FS) (p : PyPath) (sp : AbsPath)
    (ts A : String) (hsp : safePath root p = .ok sp) (hA : fsGet fs sp = some A) :
    createBackupOp root fs p ts =
      (⟨true, some (backupDirOf root ++ [backupName sp ts]), some ts, none⟩,
       fsWrite fs (backupDirOf root ++ [backupName sp ts]) A,
       [.copyF sp (backupDirOf root ++ [backupName sp ts])]) := by
  unfold createBackupOp
  rw [hsp]
  have hex := pathExists_of_fsGet fs sp A hA
  simp [hex, hA]

theorem not_prefix_concat_of (sp bdir : AbsPath) (nm : String)
    (hnb : sp.isPrefixOf bdir = false) : ¬ (sp <+: bdir ++ [nm] ∧ sp ≠ bdir ++ [nm]) := by
  rintro ⟨hpre, hne2⟩
  rcases List.prefix_concat_iff.1 hpre with heq | hpre2
  · exact hne2 heq
  · rw [← List.isPrefixOf_iff_prefix] at hpre2
    rw [hpre2] at hnb
    exact Bool.true_eq_false ▸ hnb

theorem writeFileOp_file (root : AbsPath) (fs : FS) (p : PyPath) (sp : AbsPath)
    (B ts A : String) (hsp : safePath root p = .ok sp) (hA : fsGet fs sp = some A)
    (hnd : isDir fs sp = false) (hnb : sp.isPrefixOf (backupDirOf root) = false)
    (hne : sp ≠ []) :
    writeFileOp root fs p B true ts =
      (⟨true, some (backupDirOf root ++ [backupName sp ts]), none⟩,
       fsWrite (mkdirParents (fsWrite fs (backupDirOf root ++ [backupName sp ts]) A)
         sp.dropLast) sp B,
       [.copyF sp (backupDirOf root ++ [backupName sp ts]),
        .mkdirP sp.dropLast, .writeF sp]) := by
  unfold writeFileOp
  rw [hsp]
  have hex := pathExists_of_fsGet fs sp A hA
  have hcb := createBackupOp_file root fs p sp ts A hsp hA
  have hd2 : isDir (mkdirParents
      (fsWrite fs (backupDirOf root ++ [backupName sp ts]) A) sp.dropLast) sp = false := by
    apply isDir_mkdirParents_false
    · exact isDir_fsWrite_false fs _ sp A hnd (not_prefix_concat_of sp _ _ hnb)
    · exact not_prefix_dropLast sp hne
  simp only [hex, Bool.true_and, if_true, hcb, hd2, Bool.false_eq_true, if_false]
  simp

end RSwarm
namespace RSwarm

theorem restoreBackupOp_file (root : AbsPath) (fs : FS) (cwd : AbsPath) (nm A : String)
    (target : PyPath) (tp : AbsPath)
    (hres : resolveComps [] (backupDirOf root ++ [nm]) = backupDirOf root ++ [nm])
    (hA : fsGet fs (backupDirOf root ++ [nm]) = some A)
    (htp : safePath root target = .ok tp)
    (hd1 : isDir fs tp = false) (hd2 : isDir fs tp.dropLast = true) :
    restoreBackupOp root fs cwd ⟨true, backupDirOf root ++ [nm]⟩ target =
      (⟨true, some tp, none⟩, fsWrite fs tp A,
       [.copyF (backupDirOf root ++ [nm]) tp]) := by
  unfold restoreBackupOp
  simp only [hres]
  have hpre : (backupDirOf root).isPrefixOf (backupDirOf root ++ [nm]) = true := by
    rw [List.isPrefixOf_iff_prefix]
    exact List.prefix_append _ _
  have hnebd : backupDirOf root ≠ backupDirOf root ++ [nm] := by
    intro h
    have := congrArg List.length h
    simp at this
  have hex := pathExists_of_fsGet fs (backupDirOf root ++ [nm]) A hA
  rw [if_neg (by simp [hpre, hnebd])]
  rw [if_neg (by simp [hex])]
  rw [htp]
  simp [hA, hd1, hd2]

end RSwarm
namespace RSwarm

/-- C9 counterexample: two write_file calls with backup enabled on the same
file within the same strftime second produce the SAME backup name, so the
second backup silently overwrites the first: only one backup entry exists,
it holds the intermediate content "B" (the pre-first-write content "A" is
lost from the backup area), and restoring the first backup path yields "B",
not the pre-first-write content. -/
theorem C9_backup_counterexample :
    (writeFileOp ["root", "sandbox"]
      ⟨[(["root", "sandbox", "a.py"], "A")],
       [["root", "sandbox"], ["root", "sandbox", ".backups"]]⟩
      ⟨false, ["a.py"]⟩ "B" true "20250101_000000").1.backupPath =
      some ["root", "sandbox", ".backups", "a_20250101_000000.py"] ∧
    (writeFileOp ["root", "sandbox"]
      (writeFileOp ["root", "sandbox"]
        ⟨[(["root", "sandbox", "a.py"], "A")],
         [["root", "sandbox"], ["root", "sandbox", ".backups"]]⟩
        ⟨false, ["a.py"]⟩ "B" true "20250101_000000").2.1
      ⟨false, ["a.py"]⟩ "C" true "20250101_000000").1.backupPath =
      some ["root", "sandbox", ".backups", "a_20250101_000000.py"] ∧
    fsGet (writeFileOp ["root", "sandbox"]
      (writeFileOp ["root", "sandbox"]
        ⟨[(["root", "sandbox", "a.py"], "A")],
         [["root", "sandbox"], ["root", "sandbox", ".backups"]]⟩
        ⟨false, ["a.py"]⟩ "B" true "20250101_000000").2.1
      ⟨false, ["a.py"]⟩ "C" true "20250101_000000").2.1
      ["root", "sandbox", ".backups", "a_20250101_000000.py"] = some "B" ∧
    ((writeFileOp ["root", "sandbox"]
      (writeFileOp ["root", "sandbox"]
        ⟨[(["root", "sandbox", "a.py"], "A")],
         [["root", "sandbox"], ["root", "sandbox", ".backups"]]⟩
        ⟨false, ["a.py"]⟩ "B" true "20250101_000000").2.1
      ⟨false, ["a.py"]⟩ "C" true "20250101_000000").2.1.files.countP
        (fun e => (["root", "sandbox", ".backups"] : AbsPath).isPrefixOf e.1)) = 1 ∧
    fsGet (restoreBackupOp ["root", "sandbox"]
      (writeFileOp ["root", "sandbox"]
        (writeFileOp ["root", "sandbox"]
          ⟨[(["root", "sandbox", "a.py"], "A")],
           [["root", "sandbox"], ["root", "sandbox", ".backups"]]⟩
          ⟨false, ["a.py"]⟩ "B" true "20250101_000000").2.1
        ⟨false, ["a.py"]⟩ "C" true "20250101_000000").2.1
      [] ⟨true, ["root", "sandbox", ".backups", "a_20250101_000000.py"]⟩
      ⟨false, ["a.py"]⟩).2.1 ["root", "sandbox", "a.py"] = some "B" ∧
    ("B" : String) ≠ "A" := by
  refine ⟨rfl, rfl, rfl, rfl, rfl, by decide⟩

/-- C9 (amended): backups taken at DISTINCT timestamps get distinct names:
writing the same file twice with backup enabled at timestamps ts1 and ts2
with ts1 different from ts2 produces two distinct backup entries with no data
loss - the first holds the pre-first-write content byte-for-byte, the second
holds the content written by the first call - and restoring the first backup
reproduces the pre-first-write content byte-for-byte.  Within the same
timestamp second the names collide and the later backup overwrites the
earlier (see the counterexample). -/
theorem C9_backup_amended (root : AbsPath) (fs : FS) (p : PyPath) (sp : AbsPath)
    (cwd : AbsPath) (A B C ts1 ts2 : String)
    (hsp : safePath root p = .ok sp) (hA : fsGet fs sp = some A)
    (hnd : isDir fs sp = false)
    (hnb : sp.isPrefixOf (backupDirOf root) = false)
    (hnotin : (backupDirOf root).isPrefixOf sp = false)
    (hne : sp ≠ []) (hts : ts1 ≠ ts2)
    (hres1 : resolveComps [] (backupDirOf root ++ [backupName sp ts1]) =
      backupDirOf root ++ [backupName sp ts1]) :
    backupDirOf root ++ [backupName sp ts1] ≠ backupDirOf root ++ [backupName sp ts2] ∧
    fsGet (writeFileOp root (writeFileOp root fs p B true ts1).2.1 p C true ts2).2.1
      (backupDirOf root ++ [backupName sp ts1]) = some A ∧
    fsGet (writeFileOp root (writeFileOp root fs p B true ts1).2.1 p C true ts2).2.1
      (backupDirOf root ++ [backupName sp ts2]) = some B ∧
    fsGet (restoreBackupOp root
        (writeFileOp root (writeFileOp root fs p B true ts1).2.1 p C true ts2).2.1
        cwd ⟨true, backupDirOf root ++ [backupName sp ts1]⟩ p).2.1 sp = some A := by
  set b1 := backupDirOf root ++ [backupName sp ts1] with hb1def
  set b2 := backupDirOf root ++ [backupName sp ts2] with hb2def
  set dl := sp.dropLast with hdldef
  have hb12 : b1 ≠ b2 :=
    concat_ne_concat_of_ne _ _ _ (backupName_ne sp ts1 ts2 hts)
  have hbdir_pre1 : (backupDirOf root).isPrefixOf b1 = true := by
    rw [List.isPrefixOf_iff_prefix]
    exact List.prefix_append _ _
  have hbdir_pre2 : (backupDirOf root).isPrefixOf b2 = true := by
    rw [List.isPrefixOf_iff_prefix]
    exact List.prefix_append _ _
  have hb1sp : b1 ≠ sp := by
    intro h
    rw [h] at hbdir_pre1
    rw [hbdir_pre1] at hnotin
    exact Bool.true_eq_false ▸ hnotin
  have hb2sp : b2 ≠ sp := by
    intro h
    rw [h] at hbdir_pre2
    rw [hbdir_pre2] at hnotin
    exact Bool.true_eq_false ▸ hnotin
  have hself : ¬ ((sp : AbsPath) <+: sp ∧ sp ≠ sp) := by
    rintro ⟨-, h⟩
    exact h rfl
  have hw1 := writeFileOp_file root fs p sp B ts1 A hsp hA hnd hnb hne
  rw [hw1]
  have hA1 : fsGet (fsWrite (mkdirParents (fsWrite fs b1 A) dl) sp B) sp = some B :=
    fsGet_fsWrite_self _ _ _
  have hnd1 : isDir (fsWrite (mkdirParents (fsWrite fs b1 A) dl) sp B) sp = false := by
    apply isDir_fsWrite_false _ _ _ _ _ hself
    apply isDir_mkdirParents_false
    · exact isDir_fsWrite_false fs _ sp A hnd (not_prefix_concat_of sp _ _ hnb)
    · exact not_prefix_dropLast sp hne
  have hw2 := writeFileOp_file root (fsWrite (mkdirParents (fsWrite fs b1 A) dl) sp B)
    p sp C ts2 B hsp hA1 hnd1 hnb hne
  rw [hw2]
  have hgb1 : fsGet (fsWrite (mkdirParents
      (fsWrite (fsWrite (mkdirParents (fsWrite fs b1 A) dl) sp B) b2 B) dl) sp C)
      b1 = some A := by
    rw [fsGet_fsWrite_ne _ _ _ _ hb1sp]
    rw [fsGet_mkdirParents]
    rw [fsGet_fsWrite_ne _ _ _ _ hb12]
    rw [fsGet_fsWrite_ne _ _ _ _ hb1sp]
    rw [fsGet_mkdirParents]
    exact fsGet_fsWrite_self _ _ _
  have hgb2 : fsGet (fsWrite (mkdirParents
      (fsWrite (fsWrite (mkdirParents (fsWrite fs b1 A) dl) sp B) b2 B) dl) sp C)
      b2 = some B := by
    rw [fsGet_fsWrite_ne _ _ _ _ hb2sp]
    rw [fsGet_mkdirParents]
    exact fsGet_fsWrite_self _ _ _
  refine ⟨hb12, hgb1, hgb2, ?_⟩
  have hnd2 : isDir (fsWrite (mkdirParents
      (fsWrite (fsWrite (mkdirParents (fsWrite fs b1 A) dl) sp B) b2 B) dl) sp C)
      sp = false := by
    apply isDir_fsWrite_false _ _ _ _ _ hself
    apply isDir_mkdirParents_false
    · exact isDir_fsWrite_false _ _ _ _ hnd1 (not_prefix_concat_of sp _ _ hnb)
    · exact not_prefix_dropLast sp hne
  have hdl2 : isDir (fsWrite (mkdirParents
      (fsWrite (fsWrite (mkdirParents (fsWrite fs b1 A) dl) sp B) b2 B) dl) sp C)
      dl = true := by
    apply isDir_fsWrite_of_mem_dirs
    exact mem_dirs_mkdirParents _ _
  have hr := restoreBackupOp_file root
    (fsWrite (mkdirParents
      (fsWrite (fsWrite (mkdirParents (fsWrite fs b1 A) dl) sp B) b2 B) dl) sp C)
    cwd (backupName sp ts1) A p sp hres1 hgb1 hsp hnd2 hdl2
  rw [hr]
  exact fsGet_fsWrite_self _ _ _

end RSwarm
namespace RSwarm

/-- C9 witness: the amended theorem applied to a concrete sandbox with
distinct timestamps t1 and t2. -/
theorem C9_backup_amended_witness :
    backupDirOf ["root", "sandbox"] ++ [backupName ["root", "sandbox", "a.py"] "t1"] ≠
      backupDirOf ["root", "sandbox"] ++ [backupName ["root", "sandbox", "a.py"] "t2"] ∧
    fsGet (writeFileOp ["root", "sandbox"]
        (writeFileOp ["root", "sandbox"]
          ⟨[(["root", "sandbox", "a.py"], "A")],
           [["root", "sandbox"], ["root", "sandbox", ".backups"]]⟩
          ⟨false, ["a.py"]⟩ "B" true "t1").2.1
        ⟨false, ["a.py"]⟩ "C" true "t2").2.1
      (backupDirOf ["root", "sandbox"] ++ [backupName ["root", "sandbox", "a.py"] "t1"]) =
      some "A" ∧
    fsGet (writeFileOp ["root", "sandbox"]
        (writeFileOp ["root", "sandbox"]
          ⟨[(["root", "sandbox", "a.py"], "A")],
           [["root", "sandbox"], ["root", "sandbox", ".backups"]]⟩
          ⟨false, ["a.py"]⟩ "B" true "t1").2.1
        ⟨false, ["a.py"]⟩ "C" true "t2").2.1
      (backupDirOf ["root", "sandbox"] ++ [backupName ["root", "sandbox", "a.py"] "t2"]) =
      some "B" ∧
    fsGet (restoreBackupOp ["root", "sandbox"]
        (writeFileOp ["root", "sandbox"]
          (writeFileOp ["root", "sandbox"]
            ⟨[(["root", "sandbox", "a.py"], "A")],
             [["root", "sandbox"], ["root", "sandbox", ".backups"]]⟩
            ⟨false, ["a.py"]⟩ "B" true "t1").2.1
          ⟨false, ["a.py"]⟩ "C" true "t2").2.1
        [] ⟨true, backupDirOf ["root", "sandbox"] ++
          [backupName ["root", "sandbox", "a.py"] "t1"]⟩
        ⟨false, ["a.py"]⟩).2.1 ["root", "sandbox", "a.py"] = some "A" :=
  C9_backup_amended ["root", "sandbox"]
    ⟨[(["root", "sandbox", "a.py"], "A")],
     [["root", "sandbox"], ["root", "sandbox", ".backups"]]⟩
    ⟨false, ["a.py"]⟩ ["root", "sandbox", "a.py"] [] "A" "B" "C" "t1" "t2"
    (by rfl) (by rfl) (by rfl) (by rfl) (by rfl) (by decide)
    (by decide) (by rfl)

end RSwarm
namespace RSwarm

theorem foReadFile_ok (root : AbsPath) (fs : FS) (p : PyPath) (sp : AbsPath) (A : String)
    (hsp : safePath root p = .ok sp) (hA : fsGet fs sp = some A) :
    foReadFile root fs p = .ok A := by
  unfold foReadFile readFileOp
  rw [hsp]
  simp [pathExists_of_fsGet fs sp A hA, hA]

/-- C8 counterexample: the Patch Generator returns content textually
identical to the current file ("A", unchanged by fence cleaning), yet
fix_file still takes a backup (twice: once explicitly, once inside
write_file) and still writes the file - the backup area gains an entry and a
write event occurs for that file in that iteration. -/
theorem C8_noop_counterexample :
    cleanGeneratedCode "A" = "A" ∧
    fixFile ["root", "sandbox"]
      ⟨[(["root", "sandbox", "a.py"], "A")],
       [["root", "sandbox"], ["root", "sandbox", ".backups"]]⟩
      ⟨false, ["a.py"]⟩ "A" "t1" =
      .ok (⟨⟨false, ["a.py"]⟩, true, "A"⟩,
        ⟨[(["root", "sandbox", "a.py"], "A"),
          (["root", "sandbox", ".backups", "a_t1.py"], "A")],
         [["root", "sandbox"], ["root", "sandbox", ".backups"]]⟩,
        [.copyF ["root", "sandbox", "a.py"] ["root", "sandbox", ".backups", "a_t1.py"],
         .copyF ["root", "sandbox", "a.py"] ["root", "sandbox", ".backups", "a_t1.py"],
         .mkdirP ["root", "sandbox"],
         .writeF ["root", "sandbox", "a.py"]]) := by
  exact ⟨rfl, rfl⟩

/-- C8 (amended): no no-op detection exists: for every file the Fix stage
processes successfully, a backup of the current content is created (the
explicit backup_file call happens even before the patch is generated, and
write_file adds a second one) and the cleaned patch is written
unconditionally - in particular also when the cleaned patch is textually
identical to the current content. -/
theorem C8_noop_amended (root : AbsPath) (fs : FS) (p : PyPath) (sp : AbsPath)
    (resp ts A : String)
    (hsp : safePath root p = .ok sp) (hA : fsGet fs sp = some A)
    (hnd : isDir fs sp = false)
    (hnb : sp.isPrefixOf (backupDirOf root) = false)
    (hnotin : (backupDirOf root).isPrefixOf sp = false)
    (hne : sp ≠ []) :
    ∃ fs2 evs,
      fixFile root fs p resp ts = .ok (⟨p, true, cleanGeneratedCode resp⟩, fs2, evs) ∧
      fsGet fs2 (backupDirOf root ++ [backupName sp ts]) = some A ∧
      fsGet fs2 sp = some (cleanGeneratedCode resp) ∧
      Event.writeF sp ∈ evs ∧
      Event.copyF sp (backupDirOf root ++ [backupName sp ts]) ∈ evs := by
  set b := backupDirOf root ++ [backupName sp ts] with hbdef
  have hbdir_pre : (backupDirOf root).isPrefixOf b = true := by
    rw [List.isPrefixOf_iff_prefix]
    exact List.prefix_append _ _
  have hspb : sp ≠ b := by
    intro h
    rw [← h] at hbdir_pre
    rw [hbdir_pre] at hnotin
    exact Bool.true_eq_false ▸ hnotin
  have h2 := foReadFile_ok root fs p sp A hsp hA
  have h3 : foBackupFile root fs p ts = .ok (b, fsWrite fs b A, [.copyF sp b]) := by
    unfold foBackupFile
    rw [createBackupOp_file root fs p sp ts A hsp hA]
    rfl
  have hA1 : fsGet (fsWrite fs b A) sp = some A := by
    rw [fsGet_fsWrite_ne _ _ _ _ hspb]
    exact hA
  have hnd1 : isDir (fsWrite fs b A) sp = false :=
    isDir_fsWrite_false fs b sp A hnd (not_prefix_concat_of sp _ _ hnb)
  have h4 : foWriteFile root (fsWrite fs b A) p (cleanGeneratedCode resp) true ts =
      .ok (fsWrite (mkdirParents (fsWrite (fsWrite fs b A) b A) sp.dropLast) sp
        (cleanGeneratedCode resp), [.copyF sp b, .mkdirP sp.dropLast, .writeF sp]) := by
    unfold foWriteFile
    rw [writeFileOp_file root (fsWrite fs b A) p sp (cleanGeneratedCode resp) ts A
      hsp hA1 hnd1 hnb hne]
    rfl
  refine ⟨fsWrite (mkdirParents (fsWrite (fsWrite fs b A) b A) sp.dropLast) sp
    (cleanGeneratedCode resp),
    [.copyF sp b] ++ [.copyF sp b, .mkdirP sp.dropLast, .writeF sp], ?_, ?_, ?_, ?_, ?_⟩
  · unfold fixFile validatePathSec
    simp only [hsp, h2, h3, bind, Except.bind]
    simp only [h4, bind, Except.bind]
  · rw [fsGet_fsWrite_ne _ _ _ _ (Ne.symm hspb)]
    rw [fsGet_mkdirParents]
    exact fsGet_fsWrite_self _ _ _
  · exact fsGet_fsWrite_self _ _ _
  · simp
  · simp

/-- C8 witness: the amended theorem at a concrete sandbox, with a response
identical to the current content. -/
theorem C8_noop_amended_witness :
    ∃ fs2 evs,
      fixFile ["root", "sandbox"]
        ⟨[(["root", "sandbox", "b.py"], "y = 2")],
         [["root", "sandbox"], ["root", "sandbox", ".backups"]]⟩
        ⟨false, ["b.py"]⟩ "y = 2" "t9" =
        .ok (⟨⟨false, ["b.py"]⟩, true, cleanGeneratedCode "y = 2"⟩, fs2, evs) ∧
      fsGet fs2 (backupDirOf ["root", "sandbox"] ++
        [backupName ["root", "sandbox", "b.py"] "t9"]) = some "y = 2" ∧
      fsGet fs2 ["root", "sandbox", "b.py"] = some (cleanGeneratedCode "y = 2") ∧
      Event.writeF ["root", "sandbox", "b.py"] ∈ evs ∧
      Event.copyF ["root", "sandbox", "b.py"] (backupDirOf ["root", "sandbox"] ++
        [backupName ["root", "sandbox", "b.py"] "t9"]) ∈ evs :=
  C8_noop_amended ["root", "sandbox"]
    ⟨[(["root", "sandbox", "b.py"], "y = 2")],
     [["root", "sandbox"], ["root", "sandbox", ".backups"]]⟩
    ⟨false, ["b.py"]⟩ ["root", "sandbox", "b.py"] "y = 2" "t9" "y = 2"
    (by rfl) (by rfl) (by rfl) (by rfl) (by rfl) (by decide)

end RSwarm
